import Mathlib

/-!
Shallow embedding of `src/doselog.py` (a personal dose-logging tool).

Modelling conventions:
* Python `float` amounts are modelled as exact rationals (`ℚ`); the decimal
  numeral accepted by the grammar is evaluated exactly.
* `datetime.now()` is modelled by passing an explicit `Timestamp` argument to
  each operation that captures the clock; a `Timestamp` carries a linear
  wall-clock reading and its calendar year.
* The two regexes of `parse_dose_string` are embedded as deterministic
  character-class parsers.  At every boundary of the regexes the adjacent
  character classes are disjoint (digits / the dot / unit letters /
  whitespace / alphabetic-or-hyphen tokens), so the greedy left-to-right
  scan below recognises exactly the regex language, with the same groups.
* `print` calls (error reports and warnings) are side channels with no
  effect on the store; they are modelled as no-ops.  Python exceptions that
  the code catches are modelled with `Except`.
-/

/-- Python whitespace class `\s` (ASCII part), also used by `str.strip`. -/
def isSpaceChar (c : Char) : Bool :=
  c = ' ' || c = '\t' || c = '\n' || c = '\r' || c = '\x0b' || c = '\x0c'

/-- The character class `[a-zA-Z-]` of the substance and route groups. -/
def isTokenChar (c : Char) : Bool :=
  (('a' ≤ c && c ≤ 'z') || ('A' ≤ c && c ≤ 'Z')) || c = '-'

/-- The character class `\w` (ASCII part) of the verb group. -/
def isWordChar (c : Char) : Bool :=
  (('a' ≤ c && c ≤ 'z') || ('A' ≤ c && c ≤ 'Z')) || ('0' ≤ c && c ≤ '9') || c = '_'

/-- The digit class `\d` (ASCII). -/
def isDigitChar (c : Char) : Bool :=
  '0' ≤ c && c ≤ '9'

/-- Greedy maximal munch of a character class: the longest prefix whose
characters satisfy `p`, together with the rest. -/
def spanP (p : Char → Bool) : List Char → List Char × List Char
  | [] => ([], [])
  | c :: cs =>
    if p c then
      let r := spanP p cs
      (c :: r.1, r.2)
    else ([], c :: cs)

/-- Python `str.strip()`: remove leading and trailing whitespace. -/
def pyStrip (cs : List Char) : List Char :=
  ((cs.dropWhile isSpaceChar).reverse.dropWhile isSpaceChar).reverse

/-- Numeric value of a digit string, most significant first. -/
def natOfDigits (cs : List Char) : ℕ :=
  cs.foldl (fun n c => 10 * n + (c.toNat - 48)) 0

/-- Exact value of the decimal numeral with integer digits `ip` and
fractional digits `fp` (Python `float("ip.fp")`, idealised to ℚ). -/
def decimalValue (ip fp : List Char) : ℚ :=
  (natOfDigits ip : ℚ) + (natOfDigits fp : ℚ) / (10 : ℚ) ^ fp.length

/-- Group `(\d+\.?\d*)` of both regexes: one or more digits, an optional
dot, then zero or more digits; returns its exact value and the rest. -/
def parseNumeral (cs : List Char) : Option (ℚ × List Char) :=
  if (spanP isDigitChar cs).1 = [] then none
  else
    match (spanP isDigitChar cs).2 with
    | '.' :: r2 =>
      some (decimalValue (spanP isDigitChar cs).1 (spanP isDigitChar r2).1,
        (spanP isDigitChar r2).2)
    | r1 => some (decimalValue (spanP isDigitChar cs).1 [], r1)

/-- Group `(mg|ug|g|ml)` of both regexes.  The four alternatives are
prefix-distinguished by their first two characters, so ordered alternation
equals this case split. -/
def parseUnitTok : List Char → Option (String × List Char)
  | 'm' :: 'g' :: r => some ("mg", r)
  | 'm' :: 'l' :: r => some ("ml", r)
  | 'u' :: 'g' :: r => some ("ug", r)
  | 'g' :: r => some ("g", r)
  | _ => none

/-- `\s+`: at least one whitespace character, consumed greedily. -/
def parseSpaces1 (cs : List Char) : Option (List Char) :=
  if (spanP isSpaceChar cs).1 = [] then none else some (spanP isSpaceChar cs).2

/-- `([a-zA-Z-]+)`: a nonempty alphabetic-or-hyphen token. -/
def parseToken (cs : List Char) : Option (List Char × List Char) :=
  if (spanP isTokenChar cs).1 = [] then none
  else some ((spanP isTokenChar cs).1, (spanP isTokenChar cs).2)

/-- The standard regex
`^(\d+\.?\d*)(mg|ug|g|ml)\s+([a-zA-Z-]+)\s+([a-zA-Z-]+)$`,
yielding (amount, unit, substance, route). -/
def parseStandardPattern (cs : List Char) : Option (ℚ × String × List Char × List Char) :=
  match parseNumeral cs with
  | none => none
  | some (amt, r1) =>
    match parseUnitTok r1 with
    | none => none
    | some (unit, r2) =>
      match parseSpaces1 r2 with
      | none => none
      | some r3 =>
        match parseToken r3 with
        | none => none
        | some (sub, r4) =>
          match parseSpaces1 r4 with
          | none => none
          | some r5 =>
            match parseToken r5 with
            | none => none
            | some (route, r6) =>
              if r6 = [] then some (amt, unit, sub, route) else none

/-- The verb regex
`^(@\w+)\s+(\d+\.?\d*)(mg|ug|g|ml)\s+([a-zA-Z-]+)$`,
yielding (verb, amount, unit, substance). -/
def parseVerbPattern (cs : List Char) : Option (List Char × ℚ × String × List Char) :=
  match cs with
  | '@' :: rest =>
    if (spanP isWordChar rest).1 = [] then none
    else
      match parseSpaces1 (spanP isWordChar rest).2 with
      | none => none
      | some r1 =>
        match parseNumeral r1 with
        | none => none
        | some (amt, r2) =>
          match parseUnitTok r2 with
          | none => none
          | some (unit, r3) =>
            match parseSpaces1 r3 with
            | none => none
            | some r4 =>
              match parseToken r4 with
              | none => none
              | some (sub, r5) =>
                if r5 = [] then some ('@' :: (spanP isWordChar rest).1, amt, unit, sub)
                else none
  | _ => none

/-- Python `str.lower()` (ASCII part), as used on the substance group. -/
def pyLower (cs : List Char) : List Char :=
  cs.map Char.toLower

/-- `ADMINISTRATION_METHODS`: canonical route → declared aliases. -/
def ADMINISTRATION_METHODS : List (String × List String) := [
  ("oral", ["oral", "swallowed", "chewed", "@ate"]),
  ("insufflation", ["insufflation", "snorted", "intranasal", "nasal", "@sniffed"]),
  ("inhalation", ["inhalation", "inhaled", "smoked", "vaporized"]),
  ("intravenous", ["intravenous-injection", "intra-arterial", "injected", "@injected"]),
  ("intramuscular", ["intramuscular-injection"]),
  ("subcutaneous", ["subcutaneous-injection", "intradermal"]),
  ("rectal", ["rectal", "intrarectal", "plugged", "@boofed"]),
  ("transdermal", ["transdermal", "dermal", "applied", "topical"]),
  ("sublingual", ["sublingual", "dissolved"]),
  ("buccal", ["buccal"]),
  ("other", ["intravaginal", "intrathecal", "intraperitoneal", "intraosseous",
             "intravitreal", "intrapleural", "intrapericardial", "intravesical",
             "intralesional", "ocular", "otic", "epidural", "absorbed",
             "administered"])]

/-- `ROUTE_ALIASES`: the reverse mapping alias → canonical route, as the
association list built by the dict comprehension. -/
def ROUTE_ALIASES : List (String × String) :=
  (ADMINISTRATION_METHODS.map fun p => p.2.map fun a => (a, p.1)).flatten

/-- Python dict lookup `ROUTE_ALIASES.get(tok)` (on duplicate keys a dict
keeps the last insertion, hence the reversed association list). -/
def resolveRoute (tok : String) : Option String :=
  ROUTE_ALIASES.reverse.lookup tok

/-- A `datetime` as far as the program observes it: a linear wall-clock
reading and its calendar year. -/
structure Timestamp where
  time : ℤ
  year : ℤ
deriving DecidableEq, Repr

/-- The `DoseEntry` dataclass. -/
structure DoseEntry where
  substance : String
  amount : ℚ
  route : String
  timestamp : Timestamp
  unit : String := "mg"
deriving DecidableEq, Repr

/-- The `User` dataclass: full history plus the transient filtered view. -/
structure User where
  name : String
  entries : List DoseEntry := []
  filtered_entries : List DoseEntry := []
deriving DecidableEq, Repr

namespace User

/-- `User.parse_dose_string`: try the standard pattern, then the verb
pattern; validate the route/verb token against `ROUTE_ALIASES`; lower-case
the substance.  Errors are the raised `DoseParsingError`s. -/
def parse_dose_string (dose_string : String) : Except String (ℚ × String × String × String) :=
  match parseStandardPattern (pyStrip dose_string.data) with
  | some (amount, unit, substance, route) =>
    if (resolveRoute (String.mk route)).isSome then
      Except.ok (amount, unit, String.mk (pyLower substance), String.mk route)
    else
      Except.error ("Unknown route of administration: " ++ String.mk route)
  | none =>
    match parseVerbPattern (pyStrip dose_string.data) with
    | some (verb, amount, unit, substance) =>
      if (resolveRoute (String.mk verb)).isSome then
        Except.ok (amount, unit, String.mk (pyLower substance), String.mk verb)
      else
        Except.error ("Unknown verb command: " ++ String.mk verb)
    | none =>
      Except.error "Invalid dose string format."

/-- The caller-side unit conversion of `log_dose_string`. -/
def convertToMg (unit : String) (amount : ℚ) : ℚ :=
  if unit = "ug" then amount / 1000
  else if unit = "g" then amount * 1000
  else amount

/-- `User.log_dose_string`: parse, resolve the alias, convert units, append
the entry; on any `DoseParsingError` report and return the store unchanged. -/
def log_dose_string (u : User) (dose_string : String) (now : Timestamp) : User :=
  match parse_dose_string dose_string with
  | Except.error _ => u
  | Except.ok (amount, unit, substance, route_or_verb) =>
    match resolveRoute route_or_verb with
    | none => u
    | some standard_route =>
      { u with entries := u.entries ++
          [{ substance := substance, amount := convertToMg unit amount,
             route := standard_route, timestamp := now, unit := "mg" }] }

/-- `User.log_dose`: explicit logging; an unknown route degrades to
`"other"` with a warning (the warning is a no-op side channel here). -/
def log_dose (u : User) (substance : String) (amount : ℚ) (route : String)
    (now : Timestamp) : User :=
  let route' := if (resolveRoute route).isSome then route else "other"
  let standard_route := (resolveRoute route').getD "other"
  { u with entries := u.entries ++
      [{ substance := substance, amount := amount, route := standard_route,
         timestamp := now, unit := "mg" }] }

/-- `User.only`: view = entries of the full history with matching substance. -/
def only (u : User) (substances : List String) : User :=
  { u with filtered_entries :=
      u.entries.filter fun e => substances.contains e.substance }

/-- `User.via`: view = entries of the current view with matching route. -/
def via (u : User) (routes : List String) : User :=
  { u with filtered_entries :=
      u.filtered_entries.filter fun e => routes.contains e.route }

/-- `User.last`: view = Python slice `filtered_entries[-n:]`.  For `n = 0`
the slice `[-0:]` is `[0:]`, the whole list. -/
def last (u : User) (n : ℕ) : User :=
  { u with filtered_entries :=
      if n = 0 then u.filtered_entries
      else u.filtered_entries.drop (u.filtered_entries.length - n) }

/-- `User.from_year`: view = entries of the full history from that year. -/
def from_year (u : User) (year : ℤ) : User :=
  { u with filtered_entries :=
      u.entries.filter fun e => e.timestamp.year = year }

/-- `User.from_date_range`: view = entries of the full history whose
timestamp lies in the inclusive range. -/
def from_date_range (u : User) (start_date end_date : Timestamp) : User :=
  { u with filtered_entries :=
      u.entries.filter fun e =>
        start_date.time ≤ e.timestamp.time && e.timestamp.time ≤ end_date.time }

/-- One `tally[entry.substance][entry.route] += entry.amount` step on a
nested association list (insertion order preserved, as for a defaultdict). -/
def addToTally (t : List (String × List (String × ℚ))) (sub route : String)
    (amt : ℚ) : List (String × List (String × ℚ)) :=
  match t with
  | [] => [(sub, [(route, amt)])]
  | (s, inner) :: rest =>
    if s = sub then
      (s, addInner inner) :: rest
    else
      (s, inner) :: addToTally rest sub route amt
where
  addInner : List (String × ℚ) → List (String × ℚ)
    | [] => [(route, amt)]
    | (r, a) :: rest => if r = route then (r, a + amt) :: rest
                        else (r, a) :: addInner rest

/-- `User.tally_each`: total amounts per substance and route. -/
def tally_each (u : User) : List (String × List (String × ℚ)) :=
  u.filtered_entries.foldl (fun t e => addToTally t e.substance e.route e.amount) []

/-- `User.total_dose`: sum of amounts in the view. -/
def total_dose (u : User) : ℚ :=
  (u.filtered_entries.map fun e => e.amount).sum

/-- `User.average_dose`: mean of amounts in the view, 0 on an empty view. -/
def average_dose (u : User) : ℚ :=
  if u.filtered_entries = [] then 0
  else total_dose u / u.filtered_entries.length

/-- `User.last_dose_time`: `now - max(view, key=timestamp).timestamp`
(`max` keeps the earliest entry among timestamp ties), `None` when empty. -/
def last_dose_time (u : User) (now : Timestamp) : Option ℤ :=
  match u.filtered_entries with
  | [] => none
  | e :: es =>
    some (now.time -
      (es.foldl (fun best x =>
        if best.timestamp.time < x.timestamp.time then x else best) e).timestamp.time)

/-- `User.median_dose`: middle of the sorted amounts for an odd count, mean
of the two middle elements for an even count, 0 on an empty view. -/
def median_dose (u : User) : ℚ :=
  if u.filtered_entries = [] then 0
  else
    let doses := (u.filtered_entries.map fun e => e.amount).insertionSort (· ≤ ·)
    let n := doses.length
    let mid := n / 2
    if n % 2 = 1 then doses.getD mid 0
    else (doses.getD (mid - 1) 0 + doses.getD mid 0) / 2

end User

/-- Modelled from the spec: "`last(n)`: sets the working view = the last n
entries (chronological tail) of the current working view" — the last `n`
elements of a list, in order. -/
def lastSpec (n : ℕ) (l : List DoseEntry) : List DoseEntry :=
  (l.reverse.take n).reverse

/-- Modelled from the spec: "the middle element for an odd count, the
arithmetic mean of the two middle elements for an even count", over an
already sorted list of amounts. -/
def medianSpec (l : List ℚ) : ℚ :=
  if l.length % 2 = 1 then l.getD (l.length / 2) 0
  else (l.getD (l.length / 2 - 1) 0 + l.getD (l.length / 2) 0) / 2

/-! ### Supporting lemmas -/

theorem space_char_cases {c : Char} (h : isSpaceChar c = true) :
    c = ' ' ∨ c = '\t' ∨ c = '\n' ∨ c = '\r' ∨ c = '\x0b' ∨ c = '\x0c' := by
  simp only [isSpaceChar, Bool.or_eq_true, decide_eq_true_eq] at h
  tauto

theorem not_space_of_digit {c : Char} (h : isDigitChar c = true) :
    isSpaceChar c = false := by
  cases hs : isSpaceChar c with
  | false => rfl
  | true =>
    rcases space_char_cases hs with hc | hc | hc | hc | hc | hc <;>
      (subst hc; exact absurd h (by decide))

theorem not_space_of_token {c : Char} (h : isTokenChar c = true) :
    isSpaceChar c = false := by
  cases hs : isSpaceChar c with
  | false => rfl
  | true =>
    rcases space_char_cases hs with hc | hc | hc | hc | hc | hc <;>
      (subst hc; exact absurd h (by decide))

theorem not_space_of_word {c : Char} (h : isWordChar c = true) :
    isSpaceChar c = false := by
  cases hs : isSpaceChar c with
  | false => rfl
  | true =>
    rcases space_char_cases hs with hc | hc | hc | hc | hc | hc <;>
      (subst hc; exact absurd h (by decide))

theorem not_token_of_space {c : Char} (h : isSpaceChar c = true) :
    isTokenChar c = false := by
  rcases space_char_cases h with hc | hc | hc | hc | hc | hc <;>
    (subst hc; decide)

theorem spanP_append_of_all {p : Char → Bool} :
    ∀ (xs ys : List Char), (∀ c ∈ xs, p c = true) →
      (∀ c, ys.head? = some c → p c = false) →
      spanP p (xs ++ ys) = (xs, ys)
  | [], ys, _, h2 => by
    cases ys with
    | nil => rfl
    | cons c t => simp [spanP, h2 c rfl]
  | x :: xs, ys, h1, h2 => by
    have hx : p x = true := h1 x (List.mem_cons_self x xs)
    have ih := spanP_append_of_all xs ys (fun c hc => h1 c (List.mem_cons_of_mem x hc)) h2
    simp [spanP, hx, ih]

theorem pyStrip_eq_self {cs : List Char}
    (h1 : ∀ c, cs.head? = some c → isSpaceChar c = false)
    (h2 : ∀ c, cs.getLast? = some c → isSpaceChar c = false) :
    pyStrip cs = cs := by
  have hd : cs.dropWhile isSpaceChar = cs := by
    cases cs with
    | nil => rfl
    | cons c t => exact List.dropWhile_cons_of_neg (by simp [h1 c rfl])
  have hrev : cs.reverse.dropWhile isSpaceChar = cs.reverse := by
    cases hrv : cs.reverse with
    | nil => rfl
    | cons c t =>
      have hc : cs.getLast? = some c := by
        rw [← List.head?_reverse, hrv]; rfl
      exact List.dropWhile_cons_of_neg (by simp [h2 c hc])
  unfold pyStrip
  rw [hd, hrev, List.reverse_reverse]

theorem not_word_of_space {c : Char} (h : isSpaceChar c = true) :
    isWordChar c = false := by
  rcases space_char_cases h with hc | hc | hc | hc | hc | hc <;>
    (subst hc; decide)

theorem head_not_cons {p : Char → Bool} {x : Char} {xs rest : List Char}
    (hx : p x = false) : ∀ c, ((x :: xs) ++ rest).head? = some c → p c = false := by
  intro c hc
  simp only [List.cons_append, List.head?_cons, Option.some.injEq] at hc
  subst hc
  exact hx

theorem getLast_not_space_of_append {pre tk : List Char} (htk : tk ≠ [])
    (htkc : ∀ c ∈ tk, isTokenChar c = true) :
    ∀ c, (pre ++ tk).getLast? = some c → isSpaceChar c = false := by
  intro c hc
  rw [List.getLast?_append_of_ne_nil pre htk] at hc
  exact not_space_of_token (htkc c (List.mem_of_getLast?_eq_some hc))

theorem parseSpaces1_composed (sp rest : List Char) (hsp : sp ≠ [])
    (hspc : ∀ c ∈ sp, isSpaceChar c = true)
    (hrest : ∀ c, rest.head? = some c → isSpaceChar c = false) :
    parseSpaces1 (sp ++ rest) = some rest := by
  unfold parseSpaces1
  rw [spanP_append_of_all sp rest hspc hrest]
  simp [hsp]

theorem parseToken_composed (tk rest : List Char) (htk : tk ≠ [])
    (htkc : ∀ c ∈ tk, isTokenChar c = true)
    (hrest : ∀ c, rest.head? = some c → isTokenChar c = false) :
    parseToken (tk ++ rest) = some (tk, rest) := by
  unfold parseToken
  rw [spanP_append_of_all tk rest htkc hrest]
  simp [htk]

theorem parseNumeral_composed (ip fp rest : List Char) (dot : Bool)
    (hip : ip ≠ []) (hipd : ∀ c ∈ ip, isDigitChar c = true)
    (hfpd : ∀ c ∈ fp, isDigitChar c = true)
    (hnd : dot = false → fp = [])
    (hrest1 : ∀ c, rest.head? = some c → isDigitChar c = false)
    (hrest2 : ∀ c, rest.head? = some c → c ≠ '.') :
    parseNumeral (ip ++ ((if dot then '.' :: fp else []) ++ rest)) =
      some (decimalValue ip fp, rest) := by
  cases dot with
  | true =>
    have h1 : spanP isDigitChar (ip ++ ('.' :: (fp ++ rest))) = (ip, '.' :: (fp ++ rest)) :=
      spanP_append_of_all _ _ hipd (by
        intro c hc
        simp only [List.head?_cons, Option.some.injEq] at hc
        subst hc
        decide)
    have h2 : spanP isDigitChar (fp ++ rest) = (fp, rest) :=
      spanP_append_of_all _ _ hfpd hrest1
    have hcomp : ip ++ ((if true then '.' :: fp else []) ++ rest) =
        ip ++ ('.' :: (fp ++ rest)) := by simp
    rw [hcomp]
    unfold parseNumeral
    rw [h1]
    simp [hip, h2]
  | false =>
    have hfp : fp = [] := hnd rfl
    subst hfp
    have h1 : spanP isDigitChar (ip ++ rest) = (ip, rest) :=
      spanP_append_of_all _ _ hipd hrest1
    have hcomp : ip ++ ((if false then '.' :: ([] : List Char) else []) ++ rest) =
        ip ++ rest := by simp
    rw [hcomp]
    unfold parseNumeral
    rw [h1]
    dsimp only
    rw [if_neg hip]
    split
    · exact absurd rfl (hrest2 '.' rfl)
    · rfl

theorem parseStandardPattern_at_none (cs : List Char) :
    parseStandardPattern ('@' :: cs) = none := by
  unfold parseStandardPattern parseNumeral
  rw [show spanP isDigitChar ('@' :: cs) = ([], '@' :: cs) from by
    simp [spanP, show isDigitChar '@' = false from rfl]]
  simp

/-- A full standard-grammar input parses to its four groups: digits, an
optional dot with fractional digits, a unit, whitespace-separated substance
and route tokens. -/
theorem parseStandardPattern_composed
    (ip fp sp1 sub sp2 route : List Char) (dot : Bool) (unit : String)
    (hip : ip ≠ []) (hipd : ∀ c ∈ ip, isDigitChar c = true)
    (hfpd : ∀ c ∈ fp, isDigitChar c = true) (hnd : dot = false → fp = [])
    (hunit : unit = "mg" ∨ unit = "ug" ∨ unit = "g" ∨ unit = "ml")
    (hsp1 : sp1 ≠ []) (hsp1c : ∀ c ∈ sp1, isSpaceChar c = true)
    (hsub : sub ≠ []) (hsubc : ∀ c ∈ sub, isTokenChar c = true)
    (hsp2 : sp2 ≠ []) (hsp2c : ∀ c ∈ sp2, isSpaceChar c = true)
    (hroute : route ≠ []) (hroutec : ∀ c ∈ route, isTokenChar c = true) :
    parseStandardPattern
      (ip ++ ((if dot then '.' :: fp else []) ++
        (unit.data ++ (sp1 ++ (sub ++ (sp2 ++ route)))))) =
      some (decimalValue ip fp, unit, sub, route) := by
  obtain ⟨s1, sp1', rfl⟩ := List.exists_cons_of_ne_nil hsp1
  obtain ⟨b1, sub', rfl⟩ := List.exists_cons_of_ne_nil hsub
  obtain ⟨s2, sp2', rfl⟩ := List.exists_cons_of_ne_nil hsp2
  obtain ⟨r1, route', rfl⟩ := List.exists_cons_of_ne_nil hroute
  have hs1 : isSpaceChar s1 = true := hsp1c s1 (by simp)
  have hb1 : isTokenChar b1 = true := hsubc b1 (by simp)
  have hs2 : isSpaceChar s2 = true := hsp2c s2 (by simp)
  have hr1 : isTokenChar r1 = true := hroutec r1 (by simp)
  have hspc1 := parseSpaces1_composed (s1 :: sp1') ((b1 :: sub') ++ ((s2 :: sp2') ++ (r1 :: route')))
    (by simp) hsp1c (head_not_cons (not_space_of_token hb1))
  have htok1 := parseToken_composed (b1 :: sub') ((s2 :: sp2') ++ (r1 :: route'))
    (by simp) hsubc (head_not_cons (not_token_of_space hs2))
  have hspc2 := parseSpaces1_composed (s2 :: sp2') (r1 :: route')
    (by simp) hsp2c (by
      intro c hc
      simp only [List.head?_cons, Option.some.injEq] at hc
      subst hc
      exact not_space_of_token hr1)
  have htok2 : parseToken (r1 :: route') = some (r1 :: route', []) := by
    have := parseToken_composed (r1 :: route') [] (by simp) hroutec (by intro c hc; simp at hc)
    simpa using this
  rcases hunit with h | h | h | h <;> subst h
  · have hnum := parseNumeral_composed ip fp
      ('m' :: 'g' :: ((s1 :: sp1') ++ ((b1 :: sub') ++ ((s2 :: sp2') ++ (r1 :: route'))))) dot
      hip hipd hfpd hnd
      (by intro c hc; simp only [List.head?_cons, Option.some.injEq] at hc; subst hc; decide)
      (by intro c hc; simp only [List.head?_cons, Option.some.injEq] at hc; subst hc; decide)
    unfold parseStandardPattern
    rw [show ("mg" : String).data ++ ((s1 :: sp1') ++ ((b1 :: sub') ++ ((s2 :: sp2') ++ (r1 :: route')))) =
        'm' :: 'g' :: ((s1 :: sp1') ++ ((b1 :: sub') ++ ((s2 :: sp2') ++ (r1 :: route')))) from rfl]
    rw [hnum]
    dsimp only
    rw [show parseUnitTok ('m' :: 'g' :: ((s1 :: sp1') ++ ((b1 :: sub') ++ ((s2 :: sp2') ++ (r1 :: route'))))) =
        some ("mg", (s1 :: sp1') ++ ((b1 :: sub') ++ ((s2 :: sp2') ++ (r1 :: route')))) from rfl]
    dsimp only
    rw [hspc1]
    dsimp only
    rw [htok1]
    dsimp only
    rw [hspc2]
    dsimp only
    rw [htok2]
    dsimp only
    rfl
  · have hnum := parseNumeral_composed ip fp
      ('u' :: 'g' :: ((s1 :: sp1') ++ ((b1 :: sub') ++ ((s2 :: sp2') ++ (r1 :: route'))))) dot
      hip hipd hfpd hnd
      (by intro c hc; simp only [List.head?_cons, Option.some.injEq] at hc; subst hc; decide)
      (by intro c hc; simp only [List.head?_cons, Option.some.injEq] at hc; subst hc; decide)
    unfold parseStandardPattern
    rw [show ("ug" : String).data ++ ((s1 :: sp1') ++ ((b1 :: sub') ++ ((s2 :: sp2') ++ (r1 :: route')))) =
        'u' :: 'g' :: ((s1 :: sp1') ++ ((b1 :: sub') ++ ((s2 :: sp2') ++ (r1 :: route')))) from rfl]
    rw [hnum]
    dsimp only
    rw [show parseUnitTok ('u' :: 'g' :: ((s1 :: sp1') ++ ((b1 :: sub') ++ ((s2 :: sp2') ++ (r1 :: route'))))) =
        some ("ug", (s1 :: sp1') ++ ((b1 :: sub') ++ ((s2 :: sp2') ++ (r1 :: route')))) from rfl]
    dsimp only
    rw [hspc1]
    dsimp only
    rw [htok1]
    dsimp only
    rw [hspc2]
    dsimp only
    rw [htok2]
    dsimp only
    rfl
  · have hnum := parseNumeral_composed ip fp
      ('g' :: ((s1 :: sp1') ++ ((b1 :: sub') ++ ((s2 :: sp2') ++ (r1 :: route'))))) dot
      hip hipd hfpd hnd
      (by intro c hc; simp only [List.head?_cons, Option.some.injEq] at hc; subst hc; decide)
      (by intro c hc; simp only [List.head?_cons, Option.some.injEq] at hc; subst hc; decide)
    unfold parseStandardPattern
    rw [show ("g" : String).data ++ ((s1 :: sp1') ++ ((b1 :: sub') ++ ((s2 :: sp2') ++ (r1 :: route')))) =
        'g' :: ((s1 :: sp1') ++ ((b1 :: sub') ++ ((s2 :: sp2') ++ (r1 :: route')))) from rfl]
    rw [hnum]
    dsimp only
    rw [show parseUnitTok ('g' :: ((s1 :: sp1') ++ ((b1 :: sub') ++ ((s2 :: sp2') ++ (r1 :: route'))))) =
        some ("g", (s1 :: sp1') ++ ((b1 :: sub') ++ ((s2 :: sp2') ++ (r1 :: route')))) from rfl]
    dsimp only
    rw [hspc1]
    dsimp only
    rw [htok1]
    dsimp only
    rw [hspc2]
    dsimp only
    rw [htok2]
    dsimp only
    rfl
  · have hnum := parseNumeral_composed ip fp
      ('m' :: 'l' :: ((s1 :: sp1') ++ ((b1 :: sub') ++ ((s2 :: sp2') ++ (r1 :: route'))))) dot
      hip hipd hfpd hnd
      (by intro c hc; simp only [List.head?_cons, Option.some.injEq] at hc; subst hc; decide)
      (by intro c hc; simp only [List.head?_cons, Option.some.injEq] at hc; subst hc; decide)
    unfold parseStandardPattern
    rw [show ("ml" : String).data ++ ((s1 :: sp1') ++ ((b1 :: sub') ++ ((s2 :: sp2') ++ (r1 :: route')))) =
        'm' :: 'l' :: ((s1 :: sp1') ++ ((b1 :: sub') ++ ((s2 :: sp2') ++ (r1 :: route')))) from rfl]
    rw [hnum]
    dsimp only
    rw [show parseUnitTok ('m' :: 'l' :: ((s1 :: sp1') ++ ((b1 :: sub') ++ ((s2 :: sp2') ++ (r1 :: route'))))) =
        some ("ml", (s1 :: sp1') ++ ((b1 :: sub') ++ ((s2 :: sp2') ++ (r1 :: route')))) from rfl]
    dsimp only
    rw [hspc1]
    dsimp only
    rw [htok1]
    dsimp only
    rw [hspc2]
    dsimp only
    rw [htok2]
    dsimp only
    rfl

/-- A full verb-grammar input parses to its groups: the sentinel-marked
verb, the numeral, the unit, and the substance token. -/
theorem parseVerbPattern_composed
    (w sp1 ip fp sp2 sub : List Char) (dot : Bool) (unit : String)
    (hw : w ≠ []) (hwc : ∀ c ∈ w, isWordChar c = true)
    (hsp1 : sp1 ≠ []) (hsp1c : ∀ c ∈ sp1, isSpaceChar c = true)
    (hip : ip ≠ []) (hipd : ∀ c ∈ ip, isDigitChar c = true)
    (hfpd : ∀ c ∈ fp, isDigitChar c = true) (hnd : dot = false → fp = [])
    (hunit : unit = "mg" ∨ unit = "ug" ∨ unit = "g" ∨ unit = "ml")
    (hsp2 : sp2 ≠ []) (hsp2c : ∀ c ∈ sp2, isSpaceChar c = true)
    (hsub : sub ≠ []) (hsubc : ∀ c ∈ sub, isTokenChar c = true) :
    parseVerbPattern
      ('@' :: (w ++ (sp1 ++ (ip ++ ((if dot then '.' :: fp else []) ++
        (unit.data ++ (sp2 ++ sub))))))) =
      some ('@' :: w, decimalValue ip fp, unit, sub) := by
  obtain ⟨s1, sp1', rfl⟩ := List.exists_cons_of_ne_nil hsp1
  obtain ⟨d1, ip', rfl⟩ := List.exists_cons_of_ne_nil hip
  obtain ⟨s2, sp2', rfl⟩ := List.exists_cons_of_ne_nil hsp2
  obtain ⟨b1, sub', rfl⟩ := List.exists_cons_of_ne_nil hsub
  have hs1 : isSpaceChar s1 = true := hsp1c s1 (by simp)
  have hd1 : isDigitChar d1 = true := hipd d1 (by simp)
  have hs2 : isSpaceChar s2 = true := hsp2c s2 (by simp)
  have hb1 : isTokenChar b1 = true := hsubc b1 (by simp)
  have hspan : spanP isWordChar
      ((w ++ ((s1 :: sp1') ++ ((d1 :: ip') ++ ((if dot then '.' :: fp else []) ++
        (unit.data ++ ((s2 :: sp2') ++ (b1 :: sub')))))))) =
      (w, (s1 :: sp1') ++ ((d1 :: ip') ++ ((if dot then '.' :: fp else []) ++
        (unit.data ++ ((s2 :: sp2') ++ (b1 :: sub')))))) :=
    spanP_append_of_all _ _ hwc (head_not_cons (not_word_of_space hs1))
  have hspc1 := parseSpaces1_composed (s1 :: sp1')
    ((d1 :: ip') ++ ((if dot then '.' :: fp else []) ++ (unit.data ++ ((s2 :: sp2') ++ (b1 :: sub')))))
    (by simp) hsp1c (head_not_cons (not_space_of_digit hd1))
  have htok : parseToken (b1 :: sub') = some (b1 :: sub', []) := by
    have := parseToken_composed (b1 :: sub') [] (by simp) hsubc (by intro c hc; simp at hc)
    simpa using this
  have hspc2 := parseSpaces1_composed (s2 :: sp2') (b1 :: sub')
    (by simp) hsp2c (by
      intro c hc
      simp only [List.head?_cons, Option.some.injEq] at hc
      subst hc
      exact not_space_of_token hb1)
  simp only [parseVerbPattern]
  rw [hspan]
  dsimp only
  rw [if_neg hw, hspc1]
  dsimp only
  rcases hunit with h | h | h | h <;> subst h
  · have hnum := parseNumeral_composed (d1 :: ip') fp
      ('m' :: 'g' :: ((s2 :: sp2') ++ (b1 :: sub'))) dot
      (by simp) hipd hfpd hnd
      (by intro c hc; simp only [List.head?_cons, Option.some.injEq] at hc; subst hc; decide)
      (by intro c hc; simp only [List.head?_cons, Option.some.injEq] at hc; subst hc; decide)
    rw [show ("mg" : String).data ++ ((s2 :: sp2') ++ (b1 :: sub')) =
        'm' :: 'g' :: ((s2 :: sp2') ++ (b1 :: sub')) from rfl]
    rw [hnum]
    dsimp only
    rw [show parseUnitTok ('m' :: 'g' :: ((s2 :: sp2') ++ (b1 :: sub'))) =
        some ("mg", (s2 :: sp2') ++ (b1 :: sub')) from rfl]
    dsimp only
    rw [hspc2]
    dsimp only
    rw [htok]
    dsimp only
    rfl
  · have hnum := parseNumeral_composed (d1 :: ip') fp
      ('u' :: 'g' :: ((s2 :: sp2') ++ (b1 :: sub'))) dot
      (by simp) hipd hfpd hnd
      (by intro c hc; simp only [List.head?_cons, Option.some.injEq] at hc; subst hc; decide)
      (by intro c hc; simp only [List.head?_cons, Option.some.injEq] at hc; subst hc; decide)
    rw [show ("ug" : String).data ++ ((s2 :: sp2') ++ (b1 :: sub')) =
        'u' :: 'g' :: ((s2 :: sp2') ++ (b1 :: sub')) from rfl]
    rw [hnum]
    dsimp only
    rw [show parseUnitTok ('u' :: 'g' :: ((s2 :: sp2') ++ (b1 :: sub'))) =
        some ("ug", (s2 :: sp2') ++ (b1 :: sub')) from rfl]
    dsimp only
    rw [hspc2]
    dsimp only
    rw [htok]
    dsimp only
    rfl
  · have hnum := parseNumeral_composed (d1 :: ip') fp
      ('g' :: ((s2 :: sp2') ++ (b1 :: sub'))) dot
      (by simp) hipd hfpd hnd
      (by intro c hc; simp only [List.head?_cons, Option.some.injEq] at hc; subst hc; decide)
      (by intro c hc; simp only [List.head?_cons, Option.some.injEq] at hc; subst hc; decide)
    rw [show ("g" : String).data ++ ((s2 :: sp2') ++ (b1 :: sub')) =
        'g' :: ((s2 :: sp2') ++ (b1 :: sub')) from rfl]
    rw [hnum]
    dsimp only
    rw [show parseUnitTok ('g' :: ((s2 :: sp2') ++ (b1 :: sub'))) =
        some ("g", (s2 :: sp2') ++ (b1 :: sub')) from rfl]
    dsimp only
    rw [hspc2]
    dsimp only
    rw [htok]
    dsimp only
    rfl
  · have hnum := parseNumeral_composed (d1 :: ip') fp
      ('m' :: 'l' :: ((s2 :: sp2') ++ (b1 :: sub'))) dot
      (by simp) hipd hfpd hnd
      (by intro c hc; simp only [List.head?_cons, Option.some.injEq] at hc; subst hc; decide)
      (by intro c hc; simp only [List.head?_cons, Option.some.injEq] at hc; subst hc; decide)
    rw [show ("ml" : String).data ++ ((s2 :: sp2') ++ (b1 :: sub')) =
        'm' :: 'l' :: ((s2 :: sp2') ++ (b1 :: sub')) from rfl]
    rw [hnum]
    dsimp only
    rw [show parseUnitTok ('m' :: 'l' :: ((s2 :: sp2') ++ (b1 :: sub'))) =
        some ("ml", (s2 :: sp2') ++ (b1 :: sub')) from rfl]
    dsimp only
    rw [hspc2]
    dsimp only
    rw [htok]
    dsimp only
    rfl

theorem decimalValue_nonneg (ip fp : List Char) : 0 ≤ decimalValue ip fp := by
  unfold decimalValue
  positivity

theorem parseNumeral_nonneg {cs : List Char} {a : ℚ} {r : List Char}
    (h : parseNumeral cs = some (a, r)) : 0 ≤ a := by
  unfold parseNumeral at h
  split at h
  · exact absurd h (by simp)
  · split at h <;>
      (simp only [Option.some.injEq, Prod.mk.injEq] at h;
       exact h.1 ▸ decimalValue_nonneg _ _)

theorem parseStandardPattern_nonneg {cs : List Char} {a : ℚ} {un : String}
    {sub route : List Char}
    (h : parseStandardPattern cs = some (a, un, sub, route)) : 0 ≤ a := by
  unfold parseStandardPattern at h
  split at h
  · exact absurd h (by simp)
  · rename_i amt r1 heq
    split at h
    · exact absurd h (by simp)
    · split at h
      · exact absurd h (by simp)
      · split at h
        · exact absurd h (by simp)
        · split at h
          · exact absurd h (by simp)
          · split at h
            · exact absurd h (by simp)
            · split at h
              · simp only [Option.some.injEq, Prod.mk.injEq] at h
                exact h.1 ▸ parseNumeral_nonneg heq
              · exact absurd h (by simp)

theorem parseVerbPattern_nonneg {cs v : List Char} {a : ℚ}
    {un : String} {sub : List Char}
    (h : parseVerbPattern cs = some (v, a, un, sub)) : 0 ≤ a := by
  unfold parseVerbPattern at h
  split at h
  · split at h
    · exact absurd h (by simp)
    · split at h
      · exact absurd h (by simp)
      · split at h
        · exact absurd h (by simp)
        · rename_i amt r2 heq
          split at h
          · exact absurd h (by simp)
          · split at h
            · exact absurd h (by simp)
            · split at h
              · exact absurd h (by simp)
              · split at h
                · simp only [Option.some.injEq, Prod.mk.injEq] at h
                  exact h.2.1 ▸ parseNumeral_nonneg heq
                · exact absurd h (by simp)
  · exact absurd h (by simp)

theorem convertToMg_nonneg {un : String} {a : ℚ} (h : 0 ≤ a) :
    0 ≤ User.convertToMg un a := by
  unfold User.convertToMg
  split
  · positivity
  · split
    · positivity
    · exact h

theorem parse_dose_string_nonneg {s : String} {a : ℚ} {un sub rv : String}
    (h : User.parse_dose_string s = Except.ok (a, un, sub, rv)) : 0 ≤ a := by
  unfold User.parse_dose_string at h
  split at h
  · split at h
    · simp only [Except.ok.injEq, Prod.mk.injEq] at h
      rename_i amt unit sb route heq _
      exact h.1 ▸ parseStandardPattern_nonneg heq
    · exact absurd h (by simp)
  · split at h
    · split at h
      · simp only [Except.ok.injEq, Prod.mk.injEq] at h
        rename_i hstd verb amt unit sb heq _
        exact h.1 ▸ parseVerbPattern_nonneg heq
      · exact absurd h (by simp)
    · exact absurd h (by simp)

/-! ### Claim theorems: query chain and aggregates -/

/-- C4: for every history and argument lists `S` and `R`, the chained call
`only(S...).via(R...)` sets the working view to exactly those entries of the
full history whose substance is in `S` and whose route is in `R`, in
history order; `only` recomputes the view from the full history and `via`
narrows the current working view, so the full history is untouched. -/
theorem only_via_intersection (u : User) (S R : List String) :
    ((u.only S).via R).filtered_entries =
      u.entries.filter (fun e => S.contains e.substance && R.contains e.route) ∧
    ((u.only S).via R).entries = u.entries ∧
    (u.via R).filtered_entries = u.filtered_entries.filter (fun e => R.contains e.route) := by
  refine ⟨?_, rfl, rfl⟩
  show (u.entries.filter fun e => S.contains e.substance).filter
      (fun e => R.contains e.route) = _
  rw [List.filter_filter]
  exact List.filter_congr fun e _ => Bool.and_comm _ _

/-- C5: `from_year Y` sets the working view to exactly the entries of the
full history whose timestamp falls in calendar year `Y`, in history order,
regardless of the previous working view; in particular an immediately
preceding `only` is discarded. -/
theorem from_year_ignores_prior_narrowing (u : User) (S : List String) (y : ℤ) :
    (u.from_year y).filtered_entries =
      u.entries.filter (fun e => e.timestamp.year = y) ∧
    (u.from_year y).entries = u.entries ∧
    (u.only S).from_year y = u.from_year y := by
  exact ⟨rfl, rfl, rfl⟩

/-- C7 counterexample: with a one-entry working view, `last 0` keeps the
whole view (Python slice `[-0:]` is `[0:]`), not the empty view the claim
states. -/
theorem last_zero_not_empty :
    (User.last
        { name := "u", entries := [],
          filtered_entries := [{ substance := "a", amount := 1, route := "oral",
                                 timestamp := ⟨0, 0⟩, unit := "mg" }] }
        0).filtered_entries =
      [{ substance := "a", amount := 1, route := "oral",
         timestamp := ⟨0, 0⟩, unit := "mg" }] ∧
    ([{ substance := "a", amount := 1, route := "oral",
        timestamp := ⟨0, 0⟩, unit := "mg" }] : List DoseEntry) ≠ [] := by
  exact ⟨rfl, by decide⟩

/-- C7 amended: for `n > 0`, `last n` sets the working view to the last `n`
entries (chronological tail, in order) of the current working view — the
whole view when `n` exceeds its length — and leaves the full history
unchanged; for `n = 0` it keeps the whole current view (Python slice
`[-0:]`), not the empty view. -/
theorem last_is_tail_of_view (u : User) (n : ℕ) :
    (u.last n).entries = u.entries ∧
    (u.last n).filtered_entries =
      (if n = 0 then u.filtered_entries else lastSpec n u.filtered_entries) := by
  refine ⟨rfl, ?_⟩
  by_cases hn : n = 0
  · simp [User.last, hn]
  · simp only [User.last, hn, if_false]
    show u.filtered_entries.drop (u.filtered_entries.length - n) = _
    rw [lastSpec, ← List.rtake_eq_reverse_take_reverse]
    rfl

/-- C8: on an empty working view every aggregate reader returns its neutral
value: `tally_each` the empty mapping, `average_dose`, `median_dose` and
`total_dose` zero, and `last_dose_time` absent. -/
theorem empty_view_neutral_aggregates (u : User) (now : Timestamp)
    (h : u.filtered_entries = []) :
    u.tally_each = [] ∧ u.average_dose = 0 ∧ u.median_dose = 0 ∧
    u.total_dose = 0 ∧ u.last_dose_time now = none := by
  refine ⟨?_, ?_, ?_, ?_, ?_⟩ <;>
    simp [User.tally_each, User.average_dose, User.median_dose,
      User.total_dose, User.last_dose_time, h]

/-- Witness for C8 at a concrete empty user. -/
theorem empty_view_neutral_aggregates_witness :
    (User.mk "u" [] []).tally_each = [] ∧ (User.mk "u" [] []).average_dose = 0 ∧
    (User.mk "u" [] []).median_dose = 0 ∧ (User.mk "u" [] []).total_dose = 0 ∧
    (User.mk "u" [] []).last_dose_time ⟨0, 0⟩ = none :=
  empty_view_neutral_aggregates (User.mk "u" [] []) ⟨0, 0⟩ rfl

/-- C10: the canonical route names `intravenous`, `intramuscular`,
`subcutaneous` and `other` are not themselves keys of the alias table, so
explicit logging with such a route falls back to route `"other"` (after a
warning, which is a pure side channel): `log_dose` with route
`"intramuscular"` appends an entry whose route is `"other"`. -/
theorem log_dose_unknown_canonical_route (u : User) (sub : String) (amt : ℚ)
    (now : Timestamp) :
    resolveRoute "intravenous" = none ∧ resolveRoute "intramuscular" = none ∧
    resolveRoute "subcutaneous" = none ∧ resolveRoute "other" = none ∧
    (u.log_dose sub amt "intramuscular" now).entries =
      u.entries ++ [{ substance := sub, amount := amt, route := "other",
                      timestamp := now, unit := "mg" }] := by
  refine ⟨by decide, by decide, by decide, by decide, ?_⟩
  simp [User.log_dose, show resolveRoute "intramuscular" = none by decide,
    show resolveRoute "other" = none by decide]

/-- C6 counterexample: `log_dose` appends an entry with amount `-5` as
given, and `log_dose_string` on `"0mg a oral"` appends an entry with amount
`0`; neither appended amount is strictly positive. -/
theorem appended_amount_not_positive :
    (User.log_dose (User.mk "u" [] []) "x" (-5) "oral" ⟨0, 0⟩).entries =
      [{ substance := "x", amount := -5, route := "oral",
         timestamp := ⟨0, 0⟩, unit := "mg" }] ∧
    (User.log_dose_string (User.mk "u" [] []) "0mg a oral" ⟨0, 0⟩).entries =
      [{ substance := "a", amount := 0, route := "oral",
         timestamp := ⟨0, 0⟩, unit := "mg" }] ∧
    ¬ (0 : ℚ) < -5 ∧ ¬ (0 : ℚ) < 0 := by
  have hp : User.parse_dose_string "0mg a oral" =
      Except.ok (decimalValue ['0'] [], "mg", "a", "oral") := rfl
  have hv : decimalValue ['0'] [] = 0 := by
    simp [decimalValue, natOfDigits]
  refine ⟨rfl, ?_, by norm_num, by norm_num⟩
  simp [User.log_dose_string, hp, User.convertToMg,
    show resolveRoute "oral" = some "oral" from rfl, hv]

/-- C9: for every non-empty working view, `median_dose` returns the exact
median of the sorted amounts — the middle element for an odd count, the
arithmetic mean of the two middle elements for an even count (stated
against any sorted permutation `l` of the view's amounts); in particular
amounts `[10, 20, 30]` give `20` and amounts `[10, 20]` give `15`. -/
theorem median_dose_correct :
    (∀ (u : User) (l : List ℚ), u.filtered_entries ≠ [] →
      l.Perm (u.filtered_entries.map fun e => e.amount) → l.Sorted (· ≤ ·) →
      u.median_dose = medianSpec l) ∧
    (∀ u : User, (u.filtered_entries.map fun e => e.amount) = [10, 20, 30] →
      u.median_dose = 20) ∧
    (∀ u : User, (u.filtered_entries.map fun e => e.amount) = [10, 20] →
      u.median_dose = 15) := by
  refine ⟨?_, ?_, ?_⟩
  · intro u l hne hperm hsort
    have hs : (u.filtered_entries.map fun e => e.amount).insertionSort (· ≤ ·) = l := by
      refine List.eq_of_perm_of_sorted ?_ (List.sorted_insertionSort _ _) hsort
      exact (List.perm_insertionSort _ _).trans hperm.symm
    unfold User.median_dose medianSpec
    rw [if_neg hne]
    simp only [hs]
  · intro u h
    have hne : u.filtered_entries ≠ [] := by
      intro hh
      rw [hh] at h
      simp at h
    unfold User.median_dose
    rw [if_neg hne, h]
    norm_num [List.insertionSort, List.orderedInsert]
  · intro u h
    have hne : u.filtered_entries ≠ [] := by
      intro hh
      rw [hh] at h
      simp at h
    unfold User.median_dose
    rw [if_neg hne, h]
    norm_num [List.insertionSort, List.orderedInsert]

/-- Witness for C9 on a concrete two-entry view with amounts 10 and 20. -/
theorem median_dose_correct_witness :
    (User.mk "u" []
      [{ substance := "a", amount := 10, route := "oral",
         timestamp := ⟨0, 0⟩, unit := "mg" },
       { substance := "b", amount := 20, route := "oral",
         timestamp := ⟨0, 0⟩, unit := "mg" }]).median_dose = 15 ∧
    (User.mk "u" []
      [{ substance := "a", amount := 10, route := "oral",
         timestamp := ⟨0, 0⟩, unit := "mg" },
       { substance := "b", amount := 20, route := "oral",
         timestamp := ⟨0, 0⟩, unit := "mg" }]).median_dose =
      medianSpec [10, 20] :=
  ⟨median_dose_correct.2.2 _ rfl,
   median_dose_correct.1 _ [10, 20] (List.cons_ne_nil _ _) (List.Perm.refl _)
     (by norm_num [List.sorted_cons])⟩

/-- C6 amended: `log_dose_string` either leaves the history unchanged or
appends exactly one entry, whose amount is non-negative (the grammar only
admits non-negative numerals, zero included); `log_dose` always appends one
entry whose amount is exactly the amount argument, with no positivity
check. -/
theorem logging_amount_policy (u : User) (s : String) (sub route : String)
    (amt : ℚ) (now : Timestamp) :
    ((u.log_dose_string s now).entries = u.entries ∨
      ∃ e, (u.log_dose_string s now).entries = u.entries ++ [e] ∧ 0 ≤ e.amount) ∧
    ∃ e, (u.log_dose sub amt route now).entries = u.entries ++ [e] ∧
      e.amount = amt := by
  constructor
  · unfold User.log_dose_string
    split
    · exact Or.inl rfl
    · rename_i a un sb rv hp
      split
      · exact Or.inl rfl
      · exact Or.inr ⟨_, rfl, convertToMg_nonneg (parse_dose_string_nonneg hp)⟩
  · exact ⟨_, rfl, rfl⟩

/-! ### Claim theorems: free-text logging -/

/-- `parse_dose_string` on a standard-grammar input with a registered route
returns the parsed amount, the unit as written, the substance lower-cased
and the route token. -/
theorem parse_dose_string_standard
    (ip fp sp1 sub sp2 route : List Char) (dot : Bool) (unit canon : String)
    (hip : ip ≠ []) (hipd : ∀ c ∈ ip, isDigitChar c = true)
    (hfpd : ∀ c ∈ fp, isDigitChar c = true) (hnd : dot = false → fp = [])
    (hunit : unit = "mg" ∨ unit = "ug" ∨ unit = "g" ∨ unit = "ml")
    (hsp1 : sp1 ≠ []) (hsp1c : ∀ c ∈ sp1, isSpaceChar c = true)
    (hsub : sub ≠ []) (hsubc : ∀ c ∈ sub, isTokenChar c = true)
    (hsp2 : sp2 ≠ []) (hsp2c : ∀ c ∈ sp2, isSpaceChar c = true)
    (hroute : route ≠ []) (hroutec : ∀ c ∈ route, isTokenChar c = true)
    (hres : resolveRoute (String.mk route) = some canon) :
    User.parse_dose_string (String.mk (ip ++ ((if dot then '.' :: fp else []) ++
      (unit.data ++ (sp1 ++ (sub ++ (sp2 ++ route))))))) =
      Except.ok (decimalValue ip fp, unit, String.mk (pyLower sub), String.mk route) := by
  have hstrip : pyStrip (ip ++ ((if dot then '.' :: fp else []) ++
      (unit.data ++ (sp1 ++ (sub ++ (sp2 ++ route)))))) =
      ip ++ ((if dot then '.' :: fp else []) ++
      (unit.data ++ (sp1 ++ (sub ++ (sp2 ++ route))))) := by
    obtain ⟨d1, ip', rfl⟩ := List.exists_cons_of_ne_nil hip
    refine pyStrip_eq_self ?_ ?_
    · intro c hc
      simp only [List.cons_append, List.head?_cons, Option.some.injEq] at hc
      subst hc
      exact not_space_of_digit (hipd d1 (by simp))
    · intro c hc
      rw [show (d1 :: ip') ++ ((if dot then '.' :: fp else []) ++
          (unit.data ++ (sp1 ++ (sub ++ (sp2 ++ route))))) =
          ((d1 :: ip') ++ ((if dot then '.' :: fp else []) ++
          (unit.data ++ (sp1 ++ (sub ++ sp2))))) ++ route from by
        simp [List.append_assoc]] at hc
      exact getLast_not_space_of_append hroute hroutec c hc
  unfold User.parse_dose_string
  rw [show (String.mk (ip ++ ((if dot then '.' :: fp else []) ++
      (unit.data ++ (sp1 ++ (sub ++ (sp2 ++ route))))))).data =
      ip ++ ((if dot then '.' :: fp else []) ++
      (unit.data ++ (sp1 ++ (sub ++ (sp2 ++ route))))) from rfl]
  rw [hstrip,
    parseStandardPattern_composed ip fp sp1 sub sp2 route dot unit hip hipd hfpd hnd
      hunit hsp1 hsp1c hsub hsubc hsp2 hsp2c hroute hroutec]
  dsimp only
  rw [hres]
  rfl

/-- C1: for every standard-grammar input `<amount><unit> <substance> <route>`
(amount a non-negative decimal numeral `ip[.fp]`, unit one of mg/ug/g/ml
concatenated to the amount, substance and route alphabetic-or-hyphen tokens
separated by whitespace) whose route token is a registered alias,
`log_dose_string` appends exactly one entry: substance lower-cased, route
the canonical route owning the alias, and amount the parsed amount divided
by 1000 for ug, multiplied by 1000 for g, unchanged for mg and ml. -/
theorem log_dose_string_standard_grammar (u : User) (now : Timestamp)
    (ip fp sp1 sub sp2 route : List Char) (dot : Bool) (unit canon : String)
    (hip : ip ≠ []) (hipd : ∀ c ∈ ip, isDigitChar c = true)
    (hfpd : ∀ c ∈ fp, isDigitChar c = true) (hnd : dot = false → fp = [])
    (hunit : unit = "mg" ∨ unit = "ug" ∨ unit = "g" ∨ unit = "ml")
    (hsp1 : sp1 ≠ []) (hsp1c : ∀ c ∈ sp1, isSpaceChar c = true)
    (hsub : sub ≠ []) (hsubc : ∀ c ∈ sub, isTokenChar c = true)
    (hsp2 : sp2 ≠ []) (hsp2c : ∀ c ∈ sp2, isSpaceChar c = true)
    (hroute : route ≠ []) (hroutec : ∀ c ∈ route, isTokenChar c = true)
    (hres : resolveRoute (String.mk route) = some canon) :
    u.log_dose_string (String.mk (ip ++ ((if dot then '.' :: fp else []) ++
      (unit.data ++ (sp1 ++ (sub ++ (sp2 ++ route))))))) now =
      { u with entries := u.entries ++
          [{ substance := String.mk (pyLower sub),
             amount := if unit = "ug" then decimalValue ip fp / 1000
                       else if unit = "g" then decimalValue ip fp * 1000
                       else decimalValue ip fp,
             route := canon, timestamp := now, unit := "mg" }] } := by
  unfold User.log_dose_string
  rw [parse_dose_string_standard ip fp sp1 sub sp2 route dot unit canon hip hipd hfpd
    hnd hunit hsp1 hsp1c hsub hsubc hsp2 hsp2c hroute hroutec hres]
  dsimp only
  rw [hres]
  rfl

/-- Witness for C1: logging `"20mg Meth oral"` into an empty history. -/
theorem log_dose_string_standard_grammar_witness :
    User.log_dose_string (User.mk "u" [] []) "20mg Meth oral" ⟨5, 2024⟩ =
      User.mk "u"
        [{ substance := "meth", amount := decimalValue ['2', '0'] [],
           route := "oral", timestamp := ⟨5, 2024⟩, unit := "mg" }] [] ∧
    decimalValue ['2', '0'] [] = 20 := by
  constructor
  · exact log_dose_string_standard_grammar (User.mk "u" [] []) ⟨5, 2024⟩
      ['2', '0'] [] [' '] ['M', 'e', 't', 'h'] [' '] ['o', 'r', 'a', 'l'] false "mg" "oral"
      (by decide) (by decide) (by decide) (fun _ => rfl) (Or.inl rfl)
      (by decide) (by decide) (by decide) (by decide) (by decide) (by decide)
      (by decide) (by decide) rfl
  · rw [decimalValue, show natOfDigits ['2', '0'] = 20 from rfl,
      show natOfDigits [] = 0 from rfl]
    norm_num

/-- `parse_dose_string` on a verb-grammar input with a registered verb
returns the parsed amount, the unit as written, the substance lower-cased
and the verb token. -/
theorem parse_dose_string_verb
    (w sp1 ip fp sp2 sub : List Char) (dot : Bool) (unit canon : String)
    (hw : w ≠ []) (hwc : ∀ c ∈ w, isWordChar c = true)
    (hsp1 : sp1 ≠ []) (hsp1c : ∀ c ∈ sp1, isSpaceChar c = true)
    (hip : ip ≠ []) (hipd : ∀ c ∈ ip, isDigitChar c = true)
    (hfpd : ∀ c ∈ fp, isDigitChar c = true) (hnd : dot = false → fp = [])
    (hunit : unit = "mg" ∨ unit = "ug" ∨ unit = "g" ∨ unit = "ml")
    (hsp2 : sp2 ≠ []) (hsp2c : ∀ c ∈ sp2, isSpaceChar c = true)
    (hsub : sub ≠ []) (hsubc : ∀ c ∈ sub, isTokenChar c = true)
    (hres : resolveRoute (String.mk ('@' :: w)) = some canon) :
    User.parse_dose_string (String.mk ('@' :: (w ++ (sp1 ++ (ip ++
      ((if dot then '.' :: fp else []) ++ (unit.data ++ (sp2 ++ sub)))))))) =
      Except.ok (decimalValue ip fp, unit, String.mk (pyLower sub),
        String.mk ('@' :: w)) := by
  have hstrip : pyStrip ('@' :: (w ++ (sp1 ++ (ip ++
      ((if dot then '.' :: fp else []) ++ (unit.data ++ (sp2 ++ sub))))))) =
      '@' :: (w ++ (sp1 ++ (ip ++
      ((if dot then '.' :: fp else []) ++ (unit.data ++ (sp2 ++ sub)))))) := by
    refine pyStrip_eq_self ?_ ?_
    · intro c hc
      simp only [List.head?_cons, Option.some.injEq] at hc
      subst hc
      decide
    · intro c hc
      rw [show '@' :: (w ++ (sp1 ++ (ip ++
          ((if dot then '.' :: fp else []) ++ (unit.data ++ (sp2 ++ sub)))))) =
          ('@' :: (w ++ (sp1 ++ (ip ++
          ((if dot then '.' :: fp else []) ++ (unit.data ++ sp2)))))) ++ sub from by
        simp [List.append_assoc]] at hc
      exact getLast_not_space_of_append hsub hsubc c hc
  unfold User.parse_dose_string
  rw [show (String.mk ('@' :: (w ++ (sp1 ++ (ip ++
      ((if dot then '.' :: fp else []) ++ (unit.data ++ (sp2 ++ sub)))))))).data =
      '@' :: (w ++ (sp1 ++ (ip ++
      ((if dot then '.' :: fp else []) ++ (unit.data ++ (sp2 ++ sub)))))) from rfl]
  rw [hstrip, parseStandardPattern_at_none]
  rw [parseVerbPattern_composed w sp1 ip fp sp2 sub dot unit hw hwc hsp1 hsp1c hip hipd
    hfpd hnd hunit hsp2 hsp2c hsub hsubc]
  dsimp only
  rw [hres]
  rfl

/-- C2: for every verb-grammar input `@verb <amount><unit> <substance>`
whose verb token is registered, `log_dose_string` appends exactly one entry
whose route is the canonical route owning the verb, with the substance
lower-cased and the same unit-conversion rule applied to the amount. -/
theorem log_dose_string_verb_grammar (u : User) (now : Timestamp)
    (w sp1 ip fp sp2 sub : List Char) (dot : Bool) (unit canon : String)
    (hw : w ≠ []) (hwc : ∀ c ∈ w, isWordChar c = true)
    (hsp1 : sp1 ≠ []) (hsp1c : ∀ c ∈ sp1, isSpaceChar c = true)
    (hip : ip ≠ []) (hipd : ∀ c ∈ ip, isDigitChar c = true)
    (hfpd : ∀ c ∈ fp, isDigitChar c = true) (hnd : dot = false → fp = [])
    (hunit : unit = "mg" ∨ unit = "ug" ∨ unit = "g" ∨ unit = "ml")
    (hsp2 : sp2 ≠ []) (hsp2c : ∀ c ∈ sp2, isSpaceChar c = true)
    (hsub : sub ≠ []) (hsubc : ∀ c ∈ sub, isTokenChar c = true)
    (hres : resolveRoute (String.mk ('@' :: w)) = some canon) :
    u.log_dose_string (String.mk ('@' :: (w ++ (sp1 ++ (ip ++
      ((if dot then '.' :: fp else []) ++ (unit.data ++ (sp2 ++ sub)))))))) now =
      { u with entries := u.entries ++
          [{ substance := String.mk (pyLower sub),
             amount := if unit = "ug" then decimalValue ip fp / 1000
                       else if unit = "g" then decimalValue ip fp * 1000
                       else decimalValue ip fp,
             route := canon, timestamp := now, unit := "mg" }] } := by
  unfold User.log_dose_string
  rw [parse_dose_string_verb w sp1 ip fp sp2 sub dot unit canon hw hwc hsp1 hsp1c
    hip hipd hfpd hnd hunit hsp2 hsp2c hsub hsubc hres]
  dsimp only
  rw [hres]
  rfl

/-- Witness for C2: logging `"@ate 30mg adderall"` yields route `"oral"`
and amount 30. -/
theorem log_dose_string_verb_grammar_witness :
    User.log_dose_string (User.mk "u" [] []) "@ate 30mg adderall" ⟨7, 2024⟩ =
      User.mk "u"
        [{ substance := "adderall", amount := decimalValue ['3', '0'] [],
           route := "oral", timestamp := ⟨7, 2024⟩, unit := "mg" }] [] ∧
    decimalValue ['3', '0'] [] = 30 := by
  constructor
  · exact log_dose_string_verb_grammar (User.mk "u" [] []) ⟨7, 2024⟩
      ['a', 't', 'e'] [' '] ['3', '0'] [] [' ']
      ['a', 'd', 'd', 'e', 'r', 'a', 'l', 'l'] false "mg" "oral"
      (by decide) (by decide) (by decide) (by decide) (by decide) (by decide)
      (by decide) (fun _ => rfl) (Or.inl rfl) (by decide) (by decide)
      (by decide) (by decide) rfl
  · rw [decimalValue, show natOfDigits ['3', '0'] = 30 from rfl,
      show natOfDigits [] = 0 from rfl]
    norm_num

/-- C3: for every input string that matches neither grammar, or whose route
or verb token is not in the route registry, `log_dose_string` appends no
entry and returns the store unchanged (the raised `DoseParsingError` is
caught at the logging boundary, so the embedded function is total and no
exception reaches the caller). -/
theorem log_dose_string_error_no_append (u : User) (s : String) (now : Timestamp)
    (hstd : ∀ (a : ℚ) (un : String) (sub route : List Char),
      parseStandardPattern (pyStrip s.data) = some (a, un, sub, route) →
      resolveRoute (String.mk route) = none)
    (hverb : ∀ (v : List Char) (a : ℚ) (un : String) (sub : List Char),
      parseVerbPattern (pyStrip s.data) = some (v, a, un, sub) →
      resolveRoute (String.mk v) = none) :
    u.log_dose_string s now = u := by
  unfold User.log_dose_string User.parse_dose_string
  cases hp : parseStandardPattern (pyStrip s.data) with
  | some q =>
    obtain ⟨a, un, sub, route⟩ := q
    dsimp only
    rw [hstd a un sub route hp]
    rfl
  | none =>
    cases hv : parseVerbPattern (pyStrip s.data) with
    | some q =>
      obtain ⟨v, a, un, sub⟩ := q
      dsimp only
      rw [hverb v a un sub hv]
      rfl
    | none => rfl

/-- Witness for C3: a malformed string and an unknown-route string both
leave an empty history empty. -/
theorem log_dose_string_error_no_append_witness :
    User.log_dose_string (User.mk "u" [] []) "hello world" ⟨0, 0⟩ =
      User.mk "u" [] [] ∧
    User.log_dose_string (User.mk "u" [] []) "20mg foo nowhere" ⟨0, 0⟩ =
      User.mk "u" [] [] := by
  constructor
  · exact log_dose_string_error_no_append (User.mk "u" [] []) "hello world" ⟨0, 0⟩
      (by
        intro a un sub route h
        rw [show parseStandardPattern (pyStrip ("hello world").data) = none from rfl] at h
        exact Option.noConfusion h)
      (by
        intro v a un sub h
        rw [show parseVerbPattern (pyStrip ("hello world").data) = none from rfl] at h
        exact Option.noConfusion h)
  · exact log_dose_string_error_no_append (User.mk "u" [] []) "20mg foo nowhere" ⟨0, 0⟩
      (by
        intro a un sub route h
        rw [show parseStandardPattern (pyStrip ("20mg foo nowhere").data) =
          some (decimalValue ['2', '0'] [], "mg", ['f', 'o', 'o'],
            ['n', 'o', 'w', 'h', 'e', 'r', 'e']) from rfl] at h
        simp only [Option.some.injEq, Prod.mk.injEq] at h
        obtain ⟨h1, h2, h3, h4⟩ := h
        subst h4
        rfl)
      (by
        intro v a un sub h
        rw [show parseVerbPattern (pyStrip ("20mg foo nowhere").data) = none from rfl] at h
        exact Option.noConfusion h)
